import Mathlib

/-!
Shallow embedding of `src/analysis.py` (household expenditure analysis:
sanity check, national category shares, Lorenz curve and Gini coefficient).

Tables are lists of records; pandas inner merges become `flatMap` over
matching rows; `groupby` becomes deduplicated keys plus filtered sums
(pandas drops `NaN` group keys, which here are `Option.none` categories);
float arithmetic is embedded as exact rational arithmetic; `numpy`'s
round-half-to-even is `roundHalfEven`.
-/

namespace HouseholdExp

/-- A row of `households.csv`: columns `hh_id`, `weight`, `hh_size`.
`hh_size` is numeric in the source (the division on line 139 treats it
as a number), hence `ℚ` here. -/
structure Household where
  hh_id : ℕ
  weight : ℚ
  hh_size : ℚ
  deriving DecidableEq

/-- A row of `expenses.csv`: columns `hh_id`, `product_id`, `annual_expenditure`. -/
structure Expense where
  hh_id : ℕ
  product_id : ℕ
  annual_expenditure : ℚ
  deriving DecidableEq

/-- A row of `products.csv`: columns `product_id`, `coicop_survey_1`.
The category code is kept as the string the source produces with
`astype(str)` on line 95. -/
structure Product where
  product_id : ℕ
  coicop_survey_1 : String
  deriving DecidableEq

/-! ### sanity_check (analysis.py lines 24-55) -/

/-- `set(df_households['hh_id'])` (line 43), as a deduplicated list. -/
def householdIds (hs : List Household) : List ℕ :=
  (hs.map Household.hh_id).dedup

/-- `set(df_expenses['hh_id'])` (line 44), as a deduplicated list. -/
def expenseIds (es : List Expense) : List ℕ :=
  (es.map Expense.hh_id).dedup

/-- `household_ids.issubset(expense_ids)` (line 46). -/
def sanityCheckSubset (hs : List Household) (es : List Expense) : Bool :=
  (householdIds hs).all (fun i => (expenseIds es).contains i)

/-- The confirmation printed on line 47 (with `len(household_ids)` spliced in). -/
def confirmMsg (hs : List Household) : String :=
  "Yes, every household (" ++ toString (householdIds hs).length ++ ") has expenses recorded."

/-- The warning printed on line 49. -/
def warnMsg : String :=
  "Warning: Some households do not have recorded expenses."

/-- The subset-check message of `sanity_check` (lines 46-49). -/
def sanityCheckMsg (hs : List Household) (es : List Expense) : String :=
  if sanityCheckSubset hs es then confirmMsg hs else warnMsg

/-- `sanity_check` as a state-passing function: it consumes the three
tables, emits console messages, and the tables flow on to the rest of
the pipeline.  The NaN-column scan of lines 52-55 only reads the
tables; in this embedding every field is total (no NaN is
representable), so that scan emits no message and is elided.  The
second component is the data the pipeline continues with. -/
def sanityCheck (hs : List Household) (es : List Expense) (ps : List Product) :
    List String × (List Household × List Expense × List Product) :=
  ([sanityCheckMsg hs es], (hs, es, ps))

/-! ### Rounding

`pandas`/`numpy` `.round(2)` rounds half to even; `roundHalfEven` is that
tie rule on `ℚ`, and `round2` is `.round(2)`. -/

/-- Round to the nearest integer, ties to the even integer
(the `numpy` rounding rule). -/
def roundHalfEven (q : ℚ) : ℤ :=
  if Int.fract q = 1/2 then (if Even ⌊q⌋ then ⌊q⌋ else ⌊q⌋ + 1) else round q

/-- `.round(2)`: round to two decimal places, ties to even. -/
def round2 (q : ℚ) : ℚ :=
  (roundHalfEven (q * 100) : ℚ) / 100

/-! ### compute_national_share (analysis.py lines 57-116) -/

/-- The fixed COICOP level-1 code-to-name mapping (lines 76-89).
Codes outside "1".."12" are absent (`pandas` `.map` yields NaN;
here `none`). -/
def coicopMapping : String → Option String
  | "1" => some "FOOD AND NON-ALCOHOLIC BEVERAGES"
  | "2" => some "ALCOHOLIC BEVERAGES, TOBACCO AND NARCOTICS"
  | "3" => some "CLOTHING AND FOOTWEAR"
  | "4" => some "HOUSING, WATER, ELECTRICITY, GAS AND OTHER FUELS"
  | "5" => some "FURNISHINGS, HOUSEHOLD EQUIPMENT AND ROUTINE HOUSEHOLD MAINTENANCE"
  | "6" => some "HEALTH"
  | "7" => some "TRANSPORT"
  | "8" => some "COMMUNICATION"
  | "9" => some "RECREATION AND CULTURE"
  | "10" => some "EDUCATION"
  | "11" => some "RESTAURANTS AND HOTELS"
  | "12" => some "MISCELLANEOUS GOODS AND SERVICES"
  | _ => none

/-- A row after the two inner merges of lines 91-92. -/
structure NSRow where
  hh_id : ℕ
  annual_expenditure : ℚ
  coicop_survey_1 : String
  weight : ℚ
  deriving DecidableEq

/-- Lines 91-92: `df_expenses.merge(df_products, on='product_id')` then
`.merge(df_households[['hh_id','weight']], on='hh_id')`.  An inner merge
keeps, for each left row in order, one row per matching right row. -/
def nsMerged (hs : List Household) (es : List Expense) (ps : List Product) : List NSRow :=
  (es.flatMap (fun e =>
    (ps.filter (fun p => p.product_id = e.product_id)).map (fun p => (e, p)))).flatMap
    (fun ep =>
      (hs.filter (fun h => h.hh_id = ep.1.hh_id)).map
        (fun h => ⟨ep.1.hh_id, ep.1.annual_expenditure, ep.2.coicop_survey_1, h.weight⟩))

/-- Line 95: `coicop_category` column; unmapped codes become `none` (NaN). -/
def nsCat (r : NSRow) : Option String :=
  coicopMapping r.coicop_survey_1

/-- Line 98: `weighted_expenditure = annual_expenditure * weight`. -/
def nsWeighted (r : NSRow) : ℚ :=
  r.annual_expenditure * r.weight

/-- The group keys of `groupby('coicop_category')` (line 101): the distinct
non-missing categories.  `pandas` drops NaN keys (`dropna=True` default), so
rows with `nsCat = none` form no group.  (`pandas` also sorts the keys; no
property below depends on key order, so first-occurrence order is kept.) -/
def nsKeys (hs : List Household) (es : List Expense) (ps : List Product) : List String :=
  ((nsMerged hs es ps).filterMap nsCat).dedup

/-- The grouped sum `groupby('coicop_category')['weighted_expenditure'].sum()`
for one category (line 101). -/
def nsGroupSum (hs : List Household) (es : List Expense) (ps : List Product)
    (c : String) : ℚ :=
  (((nsMerged hs es ps).filter (fun r => nsCat r = some c)).map nsWeighted).sum

/-- Line 102: `total_expenditure = df_national_expenditure.sum()` — the sum of
the per-category grouped sums. -/
def nsTotal (hs : List Household) (es : List Expense) (ps : List Product) : ℚ :=
  ((nsKeys hs es ps).map (nsGroupSum hs es ps)).sum

/-- Lines 103-108: each category's percentage share of the total, rounded to
2 decimals; the output table `(Category, Share (%))`. -/
def nsShares (hs : List Household) (es : List Expense) (ps : List Product) :
    List (String × ℚ) :=
  (nsKeys hs es ps).map (fun c => (c, round2 (nsGroupSum hs es ps c / nsTotal hs es ps * 100)))

/-! ### compute_lorenz_curve_and_gini (analysis.py lines 118-172) -/

/-- A row of the merged per-household table of lines 135-136:
`annual_expenditure` is the per-household total after the groupby. -/
structure LRow where
  annual_expenditure : ℚ
  weight : ℚ
  hh_size : ℚ
  deriving DecidableEq

/-- The group keys of `groupby("hh_id")` (line 135); `pandas` sorts them
ascending. -/
def hhKeys (es : List Expense) : List ℕ :=
  List.insertionSort (· ≤ ·) (es.map Expense.hh_id).dedup

/-- The per-household expenditure total of line 135. -/
def hhTotal (es : List Expense) (k : ℕ) : ℚ :=
  ((es.filter (fun e => e.hh_id = k)).map Expense.annual_expenditure).sum

/-- Line 136: the grouped totals inner-merged with `df_households`. -/
def lorenzMerged (hs : List Household) (es : List Expense) : List LRow :=
  (hhKeys es).flatMap (fun k =>
    (hs.filter (fun h => h.hh_id = k)).map (fun h => ⟨hhTotal es k, h.weight, h.hh_size⟩))

/-- Line 139: `per_capita_expenditure = annual_expenditure / hh_size`. -/
def perCapita (r : LRow) : ℚ :=
  r.annual_expenditure / r.hh_size

/-- The sort key order of line 142. -/
def perCapLE (r r' : LRow) : Prop :=
  perCapita r ≤ perCapita r'

instance : DecidableRel perCapLE := fun r r' =>
  inferInstanceAs (Decidable (perCapita r ≤ perCapita r'))

instance : IsTotal LRow perCapLE :=
  ⟨fun r r' => le_total (perCapita r) (perCapita r')⟩

instance : IsTrans LRow perCapLE :=
  ⟨fun _ _ _ h h' => le_trans h h'⟩

/-- Line 142: `sort_values("per_capita_expenditure")` — ascending by
per-capita expenditure.  (`pandas`' default quicksort fixes no order
between ties; insertion sort realizes one valid order, and no property
below depends on the order within ties.) -/
def lorenzSorted (hs : List Household) (es : List Expense) : List LRow :=
  List.insertionSort perCapLE (lorenzMerged hs es)

/-- Population weight of a row: `hh_size * weight` (line 145). -/
def popw (r : LRow) : ℚ :=
  r.hh_size * r.weight

/-- Expenditure weight of a row: `annual_expenditure * weight` (line 146). -/
def expw (r : LRow) : ℚ :=
  r.annual_expenditure * r.weight

/-- `np.sum(hh_size * weight)` over the (sorted) table (line 145). -/
def lorenzB (hs : List Household) (es : List Expense) : ℚ :=
  ((lorenzSorted hs es).map popw).sum

/-- `np.sum(annual_expenditure * weight)` over the (sorted) table (line 146). -/
def lorenzA (hs : List Household) (es : List Expense) : ℚ :=
  ((lorenzSorted hs es).map expw).sum

/-- Running sums: `np.cumsum` applied after the element-wise division. -/
def cumsumFrom (acc : ℚ) : List ℚ → List ℚ
  | [] => []
  | x :: xs => (acc + x) :: cumsumFrom (acc + x) xs

/-- `np.cumsum`. -/
def cumsum (l : List ℚ) : List ℚ :=
  cumsumFrom 0 l

/-- Line 145: the `cum_pop` column. -/
def cumPop (hs : List Household) (es : List Expense) : List ℚ :=
  cumsum ((lorenzSorted hs es).map (fun r => popw r / lorenzB hs es))

/-- Line 146: the `cum_exp` column. -/
def cumExp (hs : List Household) (es : List Expense) : List ℚ :=
  cumsum ((lorenzSorted hs es).map (fun r => expw r / lorenzA hs es))

/-- Minimum of a list (0 on the empty list; only used on nonempty lists). -/
def listMin : List ℚ → ℚ
  | [] => 0
  | [x] => x
  | x :: y :: xs => min x (listMin (y :: xs))

/-- `np.argmin`: index of the first occurrence of the minimum. -/
def idxOfMin : List ℚ → ℕ
  | [] => 0
  | [_] => 0
  | x :: y :: xs => if x ≤ listMin (y :: xs) then 0 else idxOfMin (y :: xs) + 1

/-- Line 149: `np.argmin(np.abs(cum_pop - 0.5))`. -/
def nearestFifty (hs : List Household) (es : List Expense) : ℕ :=
  idxOfMin ((cumPop hs es).map (fun x => |x - 1/2|))

/-- Line 150: `(100 * cum_exp.values[nearest_fifty]).round(2)`. -/
def fiftyShare (hs : List Household) (es : List Expense) : ℚ :=
  round2 (100 * (cumExp hs es).getD (nearestFifty hs es) 0)

/-- `np.trapezoid(y, x)`: trapezoidal integration of the `y` values against
the `x` values (0 when fewer than two points). -/
def trap2 : List ℚ → List ℚ → ℚ
  | x :: x' :: xs, y :: y' :: ys => (x' - x) * (y + y') / 2 + trap2 (x' :: xs) (y' :: ys)
  | _, _ => 0

/-- Line 171: `gini = 1 - 2 * np.trapezoid(lorenz_y, lorenz_x)`. -/
def gini (hs : List Household) (es : List Expense) : ℚ :=
  1 - 2 * trap2 (cumPop hs es) (cumExp hs es)

/-! ### Helper lemmas: running sums -/

theorem cumsumFrom_length (l : List ℚ) : ∀ acc, (cumsumFrom acc l).length = l.length := by
  induction l with
  | nil => intro acc; rfl
  | cons x xs ih => intro acc; simp [cumsumFrom, ih]

theorem cumsumFrom_getD (l : List ℚ) :
    ∀ acc i, i < l.length → (cumsumFrom acc l).getD i 0 = acc + (l.take (i + 1)).sum := by
  induction l with
  | nil => intro acc i h; simp at h
  | cons x xs ih =>
    intro acc i h
    cases i with
    | zero => simp [cumsumFrom]
    | succ j =>
      have hj : j < xs.length := by simpa using h
      simp only [cumsumFrom, List.getD_cons_succ, List.take_succ_cons, List.sum_cons]
      rw [ih (acc + x) j hj]
      ring

theorem cumsumFrom_getLastQ (l : List ℚ) (h : l ≠ []) :
    ∀ acc, (cumsumFrom acc l).getLast? = some (acc + l.sum) := by
  induction l with
  | nil => exact absurd rfl h
  | cons x xs ih =>
    intro acc
    cases xs with
    | nil => simp [cumsumFrom]
    | cons y ys =>
      have h2 : (y :: ys) ≠ ([] : List ℚ) := by simp
      rw [cumsumFrom]
      have htail : cumsumFrom (acc + x) (y :: ys) = (acc + x + y) :: cumsumFrom (acc + x + y) ys :=
        rfl
      rw [htail, List.getLast?_cons_cons, ← htail, ih h2 (acc + x)]
      simp only [List.sum_cons, Option.some.injEq]
      ring

theorem chain'_le_cumsumFrom (l : List ℚ) (hl : ∀ x ∈ l, 0 ≤ x) :
    ∀ acc, List.Chain' (· ≤ ·) (cumsumFrom acc l) := by
  induction l with
  | nil => intro acc; simp [cumsumFrom]
  | cons x xs ih =>
    intro acc
    rw [cumsumFrom, List.chain'_cons']
    constructor
    · intro b hb
      cases xs with
      | nil => simp [cumsumFrom] at hb
      | cons y ys =>
        have hb2 : b = acc + x + y := by
          have hrw : cumsumFrom (acc + x) (y :: ys) = (acc + x + y) :: cumsumFrom (acc + x + y) ys :=
            rfl
          rw [hrw] at hb
          exact (by simpa using hb : acc + x + y = b).symm
        have hy : (0 : ℚ) ≤ y := hl y (by simp)
        rw [hb2]
        linarith
    · exact ih (fun z hz => hl z (List.mem_cons_of_mem x hz)) (acc + x)

theorem sum_map_div {α : Type} (l : List α) (f : α → ℚ) (c : ℚ) :
    (l.map fun r => f r / c).sum = (l.map f).sum / c := by
  simp only [div_eq_mul_inv]
  exact List.sum_map_mul_right l f c⁻¹

/-! ### Helper lemmas: rounding -/

theorem abs_roundHalfEven_sub (q : ℚ) : |(roundHalfEven q : ℚ) - q| ≤ 1 / 2 := by
  rw [roundHalfEven]
  split_ifs with h1 h2
  · have hq : q - (⌊q⌋ : ℚ) = 1 / 2 := by
      have := h1
      rw [Int.fract] at this
      linarith [this]
    rw [abs_le]
    constructor <;> linarith
  · have hq : q - (⌊q⌋ : ℚ) = 1 / 2 := by
      have := h1
      rw [Int.fract] at this
      linarith [this]
    rw [abs_le]
    push_cast
    constructor <;> linarith
  · rw [abs_sub_comm]
    exact abs_sub_round q

theorem abs_round2_sub (q : ℚ) : |round2 q - q| ≤ 1 / 200 := by
  have h : round2 q - q = ((roundHalfEven (q * 100) : ℚ) - q * 100) / 100 := by
    rw [round2]; ring
  rw [h, abs_div]
  have h2 : |(100 : ℚ)| = 100 := by norm_num
  rw [h2]
  have h3 := abs_roundHalfEven_sub (q * 100)
  linarith

theorem sum_round2_err (l : List ℚ) :
    |(l.map round2).sum - l.sum| ≤ (l.length : ℚ) * (1 / 200) := by
  induction l with
  | nil => simp
  | cons x xs ih =>
    simp only [List.map_cons, List.sum_cons, List.length_cons]
    have hsplit : round2 x + (xs.map round2).sum - (x + xs.sum)
        = (round2 x - x) + ((xs.map round2).sum - xs.sum) := by ring
    rw [hsplit]
    calc |(round2 x - x) + ((xs.map round2).sum - xs.sum)|
        ≤ |round2 x - x| + |(xs.map round2).sum - xs.sum| := abs_add _ _
      _ ≤ 1 / 200 + (xs.length : ℚ) * (1 / 200) := by
          exact add_le_add (abs_round2_sub x) ih
      _ = ((xs.length : ℚ) + 1) * (1 / 200) := by ring
      _ = (((xs.length + 1 : ℕ)) : ℚ) * (1 / 200) := by push_cast; ring

/-! ### Helper lemmas: argmin -/

theorem listMin_le (l : List ℚ) : ∀ a ∈ l, listMin l ≤ a := by
  induction l with
  | nil => intro a ha; simp at ha
  | cons x xs ih =>
    intro a ha
    cases xs with
    | nil =>
      have : a = x := by simpa using ha
      rw [this, listMin]
    | cons y ys =>
      rw [listMin]
      rcases List.mem_cons.mp ha with h | h
      · rw [h]; exact min_le_left _ _
      · exact le_trans (min_le_right _ _) (ih a h)

theorem idxOfMin_lt_length (l : List ℚ) (h : l ≠ []) : idxOfMin l < l.length := by
  induction l with
  | nil => exact absurd rfl h
  | cons x xs ih =>
    cases xs with
    | nil => simp [idxOfMin]
    | cons y ys =>
      rw [idxOfMin]
      split_ifs with hx
      · simp
      · have := ih (by simp)
        simpa [Nat.succ_lt_succ_iff] using this

theorem idxOfMin_getD (l : List ℚ) (h : l ≠ []) : l.getD (idxOfMin l) 0 = listMin l := by
  induction l with
  | nil => exact absurd rfl h
  | cons x xs ih =>
    cases xs with
    | nil => simp [idxOfMin, listMin]
    | cons y ys =>
      rw [idxOfMin, listMin]
      split_ifs with hx
      · simp [min_eq_left hx]
      · have hlt : listMin (y :: ys) ≤ x := le_of_lt (lt_of_not_le hx)
        simp only [List.getD_cons_succ]
        rw [ih (by simp), min_eq_right hlt]

theorem idxOfMin_le_getD (l : List ℚ) (h : l ≠ []) :
    ∀ j, j < l.length → l.getD (idxOfMin l) 0 ≤ l.getD j 0 := by
  intro j hj
  rw [idxOfMin_getD l h]
  have hmem : l.getD j 0 ∈ l := by
    rw [List.getD_eq_getElem l 0 hj]
    exact List.getElem_mem hj
  exact listMin_le l _ hmem

theorem idxOfMin_first (l : List ℚ) :
    ∀ j, j < idxOfMin l → l.getD (idxOfMin l) 0 < l.getD j 0 := by
  induction l with
  | nil => intro j hj; simp [idxOfMin] at hj
  | cons x xs ih =>
    intro j hj
    cases xs with
    | nil => simp [idxOfMin] at hj
    | cons y ys =>
      by_cases hx : x ≤ listMin (y :: ys)
      · rw [idxOfMin, if_pos hx] at hj
        simp at hj
      · rw [idxOfMin, if_neg hx] at hj
        rw [idxOfMin, if_neg hx]
        have hmin : listMin (y :: ys) < x := lt_of_not_le hx
        cases j with
        | zero =>
          simp only [List.getD_cons_succ, List.getD_cons_zero]
          rw [idxOfMin_getD (y :: ys) (by simp)]
          exact hmin
        | succ j' =>
          have hj' : j' < idxOfMin (y :: ys) := by omega
          simp only [List.getD_cons_succ]
          exact ih j' hj'

/-! ### Helper lemmas: trapezoidal integration -/

theorem trap2_nonneg (xs ys : List ℚ) (hc : List.Chain' (· ≤ ·) xs)
    (hf : List.Forall₂ (fun _ y => (0 : ℚ) ≤ y) xs ys) : 0 ≤ trap2 xs ys := by
  induction hf with
  | nil => simp [trap2]
  | @cons x y xs' ys' hy hrest ih =>
    cases hrest with
    | nil => simp [trap2]
    | @cons x' y' xs'' ys'' hy' hrest' =>
      have hc2 := List.chain'_cons.mp hc
      have hterm : (0 : ℚ) ≤ (x' - x) * (y + y') / 2 := by
        have hx : x ≤ x' := hc2.1
        have h1 : (0 : ℚ) ≤ x' - x := by linarith
        have h2 : (0 : ℚ) ≤ y + y' := by linarith [hy, hy']
        have := mul_nonneg h1 h2
        linarith
      have hrec : 0 ≤ trap2 (x' :: xs'') (y' :: ys'') :=
        ih hc2.2
      calc (0 : ℚ) ≤ (x' - x) * (y + y') / 2 + trap2 (x' :: xs'') (y' :: ys'') := by linarith
        _ = trap2 (x :: x' :: xs'') (y :: y' :: ys'') := rfl

theorem trap2_le_diag : ∀ (xs : List ℚ) (x y z : ℚ) (ys : List ℚ),
    List.Chain' (· ≤ ·) (x :: xs) → List.Forall₂ (fun a b => b ≤ a) (x :: xs) (y :: ys) →
    (x :: xs).getLast? = some z →
    trap2 (x :: xs) (y :: ys) ≤ (z ^ 2 - x ^ 2) / 2 := by
  intro xs
  induction xs with
  | nil =>
    intro x y z ys _ hf hlast
    have hz : z = x := by simpa using hlast.symm
    cases hf with
    | cons h hrest =>
      cases hrest
      subst hz
      simp [trap2]
  | cons x' xs' ih =>
    intro x y z ys hc hf hlast
    cases hf with
    | cons hxy hrest =>
      cases hrest with
      | @cons a b l1 l2 hxy' hrest' =>
        have hc2 := List.chain'_cons.mp hc
        have hx : x ≤ x' := hc2.1
        have hlast2 : (x' :: xs').getLast? = some z := by
          rw [List.getLast?_cons_cons] at hlast
          exact hlast
        have hrec := ih x' b z l2 hc2.2 (List.Forall₂.cons hxy' hrest') hlast2
        have hterm : (x' - x) * (y + b) / 2 ≤ (x' ^ 2 - x ^ 2) / 2 := by
          nlinarith [hxy, hxy', hx]
        calc trap2 (x :: x' :: xs') (y :: b :: l2)
            = (x' - x) * (y + b) / 2 + trap2 (x' :: xs') (b :: l2) := rfl
          _ ≤ (x' ^ 2 - x ^ 2) / 2 + (z ^ 2 - x' ^ 2) / 2 := add_le_add hterm hrec
          _ = (z ^ 2 - x ^ 2) / 2 := by ring

/-! ### Helper lemmas: groupby as key-wise filtered sums -/

section Groupby

variable {α κ : Type} [DecidableEq κ]

theorem sum_map_ite_add (ks : List κ) (c0 : κ) (x : ℚ) (f : κ → ℚ)
    (hnd : ks.Nodup) (hc : c0 ∈ ks) :
    (ks.map fun c => if c = c0 then x + f c else f c).sum = x + (ks.map f).sum := by
  induction ks with
  | nil => simp at hc
  | cons k rest ih =>
    have hnd2 := List.nodup_cons.mp hnd
    by_cases hk : k = c0
    · subst hk
      have hnotin : ∀ c ∈ rest, (if c = k then x + f c else f c) = f c := by
        intro c hcr
        have : c ≠ k := fun he => hnd2.1 (he ▸ hcr)
        simp [this]
      simp only [List.map_cons, List.sum_cons]
      rw [List.map_congr_left hnotin]
      rw [if_pos trivial]
      ring
    · have hc2 : c0 ∈ rest := by
        rcases List.mem_cons.mp hc with h | h
        · exact absurd h.symm hk
        · exact h
      simp only [List.map_cons, List.sum_cons, if_neg hk]
      rw [ih hnd2.2 hc2]
      ring

theorem groupby_partition (key : α → Option κ) (val : α → ℚ) (rows : List α) (ks : List κ)
    (hnd : ks.Nodup) (hks : ∀ r ∈ rows, ∀ c, key r = some c → c ∈ ks) :
    (ks.map fun c => ((rows.filter fun r => key r = some c).map val).sum).sum
      = ((rows.filter fun r => (key r).isSome).map val).sum := by
  induction rows with
  | nil =>
    simp only [List.filter_nil, List.map_nil, List.sum_nil]
    have : (ks.map fun _ => (0 : ℚ)) = List.replicate ks.length 0 := by
      simp [List.map_const', List.eq_replicate_iff]
    rw [this, List.sum_replicate]
    simp
  | cons r rs ih =>
    have ih2 := ih (fun q hq c hc => hks q (List.mem_cons_of_mem r hq) c hc)
    cases hkey : key r with
    | none =>
      have hfilters : ∀ c : κ, (List.filter (fun q => decide (key q = some c)) (r :: rs))
          = List.filter (fun q => decide (key q = some c)) rs := by
        intro c
        rw [List.filter_cons]
        simp [hkey]
      have hfilter2 : List.filter (fun q => (key q).isSome) (r :: rs)
          = List.filter (fun q => (key q).isSome) rs := by
        rw [List.filter_cons]
        simp [hkey]
      simp only [hfilters, hfilter2]
      exact ih2
    | some c0 =>
      have hc0 : c0 ∈ ks := hks r (List.mem_cons_self r rs) c0 hkey
      have hfilters : ∀ c : κ, ((List.filter (fun q => decide (key q = some c)) (r :: rs)).map
            val).sum
          = if c = c0 then val r + ((List.filter (fun q => decide (key q = some c)) rs).map
            val).sum
            else ((List.filter (fun q => decide (key q = some c)) rs).map val).sum := by
        intro c
        by_cases hc : c = c0
        · subst hc
          rw [List.filter_cons]
          simp [hkey]
        · rw [List.filter_cons]
          have hne : key r ≠ some c := by
            rw [hkey]
            simp [Ne.symm hc]
          simp [hne, hc]
      have hfilter2 : List.filter (fun q => (key q).isSome) (r :: rs)
          = r :: List.filter (fun q => (key q).isSome) rs := by
        rw [List.filter_cons]
        simp [hkey]
      rw [List.map_congr_left (fun c _ => hfilters c), hfilter2]
      rw [sum_map_ite_add ks c0 (val r)
        (fun c => ((List.filter (fun q => decide (key q = some c)) rs).map val).sum) hnd hc0]
      simp only [List.map_cons, List.sum_cons]
      rw [ih2]

end Groupby

/-! ### Facts about the Lorenz pipeline -/

theorem hhTotal_nonneg (es : List Expense) (he : ∀ e ∈ es, 0 ≤ e.annual_expenditure) (k : ℕ) :
    0 ≤ hhTotal es k := by
  apply List.sum_nonneg
  intro x hx
  rcases List.mem_map.mp hx with ⟨e, he2, rfl⟩
  exact he e (List.mem_of_mem_filter he2)

theorem lorenzMerged_valid (hs : List Household) (es : List Expense)
    (hw : ∀ h ∈ hs, 0 < h.weight) (hsz : ∀ h ∈ hs, 0 < h.hh_size)
    (he : ∀ e ∈ es, 0 ≤ e.annual_expenditure) :
    ∀ r ∈ lorenzMerged hs es, 0 ≤ r.annual_expenditure ∧ 0 < r.weight ∧ 0 < r.hh_size := by
  intro r hr
  rcases List.mem_flatMap.mp hr with ⟨k, _, hr2⟩
  rcases List.mem_map.mp hr2 with ⟨h, hh, rfl⟩
  have hhs : h ∈ hs := List.mem_of_mem_filter hh
  exact ⟨hhTotal_nonneg es he k, hw h hhs, hsz h hhs⟩

theorem lorenzSorted_valid (hs : List Household) (es : List Expense)
    (hw : ∀ h ∈ hs, 0 < h.weight) (hsz : ∀ h ∈ hs, 0 < h.hh_size)
    (he : ∀ e ∈ es, 0 ≤ e.annual_expenditure) :
    ∀ r ∈ lorenzSorted hs es, 0 ≤ r.annual_expenditure ∧ 0 < r.weight ∧ 0 < r.hh_size := by
  intro r hr
  exact lorenzMerged_valid hs es hw hsz he r ((List.mem_insertionSort perCapLE).mp hr)

theorem lorenzSorted_sorted (hs : List Household) (es : List Expense) :
    List.Sorted perCapLE (lorenzSorted hs es) :=
  List.sorted_insertionSort perCapLE (lorenzMerged hs es)

theorem cross_of_perCapLE (p q : LRow) (hp : 0 < p.weight) (hq : 0 < q.weight)
    (hps : 0 < p.hh_size) (hqs : 0 < q.hh_size) (h : perCapLE p q) :
    expw p * popw q ≤ expw q * popw p := by
  have h2 : p.annual_expenditure * q.hh_size ≤ q.annual_expenditure * p.hh_size :=
    (div_le_div_iff hps hqs).mp h
  have hw : (0 : ℚ) ≤ p.weight * q.weight := le_of_lt (mul_pos hp hq)
  calc expw p * popw q
      = (p.annual_expenditure * q.hh_size) * (p.weight * q.weight) := by
        unfold expw popw; ring
    _ ≤ (q.annual_expenditure * p.hh_size) * (p.weight * q.weight) :=
        mul_le_mul_of_nonneg_right h2 hw
    _ = expw q * popw p := by unfold expw popw; ring

theorem sum_cross_single (p : LRow) (l2 : List LRow)
    (h : ∀ q ∈ l2, expw p * popw q ≤ expw q * popw p) :
    expw p * (l2.map popw).sum ≤ popw p * (l2.map expw).sum := by
  rw [← List.sum_map_mul_left, ← List.sum_map_mul_left]
  apply List.sum_le_sum
  intro q hq
  calc expw p * popw q ≤ expw q * popw p := h q hq
    _ = popw p * expw q := by ring

theorem sum_cross (l1 l2 : List LRow)
    (h : ∀ p ∈ l1, ∀ q ∈ l2, expw p * popw q ≤ expw q * popw p) :
    (l1.map expw).sum * (l2.map popw).sum ≤ (l1.map popw).sum * (l2.map expw).sum := by
  rw [← List.sum_map_mul_right, ← List.sum_map_mul_right]
  apply List.sum_le_sum
  intro p hp
  exact sum_cross_single p l2 (h p hp)

theorem takeSum_cross (l : List LRow) (hsor : List.Pairwise perCapLE l)
    (hv : ∀ r ∈ l, 0 ≤ r.annual_expenditure ∧ 0 < r.weight ∧ 0 < r.hh_size) (k : ℕ) :
    ((l.take k).map expw).sum * (l.map popw).sum
      ≤ ((l.take k).map popw).sum * (l.map expw).sum := by
  have hsplit := List.take_append_drop k l
  have hpw : List.Pairwise perCapLE (l.take k ++ l.drop k) := by rw [hsplit]; exact hsor
  have hcross0 : ∀ p ∈ l.take k, ∀ q ∈ l.drop k, perCapLE p q :=
    (List.pairwise_append.mp hpw).2.2
  have hcross : ∀ p ∈ l.take k, ∀ q ∈ l.drop k, expw p * popw q ≤ expw q * popw p := by
    intro p hp q hq
    obtain ⟨_, hpwt, hpsz⟩ := hv p (List.take_subset k l hp)
    obtain ⟨_, hqwt, hqsz⟩ := hv q (List.drop_subset k l hq)
    exact cross_of_perCapLE p q hpwt hqwt hpsz hqsz (hcross0 p hp q hq)
  have hmain := sum_cross (l.take k) (l.drop k) hcross
  have hpop : (l.map popw).sum = ((l.take k).map popw).sum + ((l.drop k).map popw).sum := by
    conv_lhs => rw [← hsplit]
    rw [List.map_append, List.sum_append]
  have hexp : (l.map expw).sum = ((l.take k).map expw).sum + ((l.drop k).map expw).sum := by
    conv_lhs => rw [← hsplit]
    rw [List.map_append, List.sum_append]
  rw [hpop, hexp]
  nlinarith [hmain]

theorem cumPop_length (hs : List Household) (es : List Expense) :
    (cumPop hs es).length = (lorenzSorted hs es).length := by
  rw [cumPop, cumsum, cumsumFrom_length, List.length_map]

theorem cumExp_length (hs : List Household) (es : List Expense) :
    (cumExp hs es).length = (lorenzSorted hs es).length := by
  rw [cumExp, cumsum, cumsumFrom_length, List.length_map]

theorem cumPop_getD (hs : List Household) (es : List Expense) (i : ℕ)
    (hi : i < (lorenzSorted hs es).length) :
    (cumPop hs es).getD i 0
      = (((lorenzSorted hs es).take (i + 1)).map popw).sum / lorenzB hs es := by
  rw [cumPop, cumsum, cumsumFrom_getD _ _ _ (by simpa using hi), zero_add,
    ← List.map_take, sum_map_div]

theorem cumExp_getD (hs : List Household) (es : List Expense) (i : ℕ)
    (hi : i < (lorenzSorted hs es).length) :
    (cumExp hs es).getD i 0
      = (((lorenzSorted hs es).take (i + 1)).map expw).sum / lorenzA hs es := by
  rw [cumExp, cumsum, cumsumFrom_getD _ _ _ (by simpa using hi), zero_add,
    ← List.map_take, sum_map_div]

theorem cumPop_get (hs : List Household) (es : List Expense) (i : ℕ)
    (h1 : i < (cumPop hs es).length) :
    (cumPop hs es).get ⟨i, h1⟩
      = (((lorenzSorted hs es).take (i + 1)).map popw).sum / lorenzB hs es := by
  have hi : i < (lorenzSorted hs es).length := by rwa [cumPop_length] at h1
  rw [← List.getD_eq_get (cumPop hs es) 0 h1]
  exact cumPop_getD hs es i hi

theorem cumExp_get (hs : List Household) (es : List Expense) (i : ℕ)
    (h1 : i < (cumExp hs es).length) :
    (cumExp hs es).get ⟨i, h1⟩
      = (((lorenzSorted hs es).take (i + 1)).map expw).sum / lorenzA hs es := by
  have hi : i < (lorenzSorted hs es).length := by rwa [cumExp_length] at h1
  rw [← List.getD_eq_get (cumExp hs es) 0 h1]
  exact cumExp_getD hs es i hi

theorem cumExp_le_cumPop (hs : List Household) (es : List Expense)
    (hw : ∀ h ∈ hs, 0 < h.weight) (hsz : ∀ h ∈ hs, 0 < h.hh_size)
    (he : ∀ e ∈ es, 0 ≤ e.annual_expenditure)
    (hA : 0 < lorenzA hs es) (hB : 0 < lorenzB hs es) :
    List.Forall₂ (fun x y => y ≤ x ∧ 0 ≤ y) (cumPop hs es) (cumExp hs es) := by
  rw [List.forall₂_iff_get]
  refine ⟨by rw [cumPop_length, cumExp_length], ?_⟩
  intro i h1 h2
  rw [cumPop_get hs es i h1, cumExp_get hs es i h2]
  constructor
  · rw [div_le_div_iff hA hB]
    exact takeSum_cross (lorenzSorted hs es) (lorenzSorted_sorted hs es)
      (lorenzSorted_valid hs es hw hsz he) (i + 1)
  · apply div_nonneg _ (le_of_lt hA)
    apply List.sum_nonneg
    intro x hx
    rcases List.mem_map.mp hx with ⟨r, hr, rfl⟩
    have hv := lorenzSorted_valid hs es hw hsz he r (List.take_subset _ _ hr)
    exact mul_nonneg hv.1 (le_of_lt hv.2.1)

theorem lorenzB_nonneg (hs : List Household) (es : List Expense)
    (hw : ∀ h ∈ hs, 0 < h.weight) (hsz : ∀ h ∈ hs, 0 < h.hh_size)
    (he : ∀ e ∈ es, 0 ≤ e.annual_expenditure) : 0 ≤ lorenzB hs es := by
  apply List.sum_nonneg
  intro x hx
  rcases List.mem_map.mp hx with ⟨r, hr, rfl⟩
  have hv := lorenzSorted_valid hs es hw hsz he r hr
  exact mul_nonneg (le_of_lt hv.2.2) (le_of_lt hv.2.1)

theorem cumPop_chain (hs : List Household) (es : List Expense)
    (hw : ∀ h ∈ hs, 0 < h.weight) (hsz : ∀ h ∈ hs, 0 < h.hh_size)
    (he : ∀ e ∈ es, 0 ≤ e.annual_expenditure) :
    List.Chain' (· ≤ ·) (cumPop hs es) := by
  apply chain'_le_cumsumFrom
  intro x hx
  rcases List.mem_map.mp hx with ⟨r, hr, rfl⟩
  have hv := lorenzSorted_valid hs es hw hsz he r hr
  exact div_nonneg (mul_nonneg (le_of_lt hv.2.2) (le_of_lt hv.2.1))
    (lorenzB_nonneg hs es hw hsz he)

theorem cumExp_chain (hs : List Household) (es : List Expense)
    (hw : ∀ h ∈ hs, 0 < h.weight) (hsz : ∀ h ∈ hs, 0 < h.hh_size)
    (he : ∀ e ∈ es, 0 ≤ e.annual_expenditure) (hA : 0 < lorenzA hs es) :
    List.Chain' (· ≤ ·) (cumExp hs es) := by
  apply chain'_le_cumsumFrom
  intro x hx
  rcases List.mem_map.mp hx with ⟨r, hr, rfl⟩
  have hv := lorenzSorted_valid hs es hw hsz he r hr
  exact div_nonneg (mul_nonneg hv.1 (le_of_lt hv.2.1)) (le_of_lt hA)

theorem lorenzSorted_ne_nil (hs : List Household) (es : List Expense)
    (hA : 0 < lorenzA hs es) : lorenzSorted hs es ≠ [] := by
  intro h
  rw [lorenzA, h] at hA
  simp at hA

theorem lorenzB_pos (hs : List Household) (es : List Expense)
    (hw : ∀ h ∈ hs, 0 < h.weight) (hsz : ∀ h ∈ hs, 0 < h.hh_size)
    (he : ∀ e ∈ es, 0 ≤ e.annual_expenditure) (hne : lorenzSorted hs es ≠ []) :
    0 < lorenzB hs es := by
  apply List.sum_pos
  · intro x hx
    rcases List.mem_map.mp hx with ⟨r, hr, rfl⟩
    have hv := lorenzSorted_valid hs es hw hsz he r hr
    exact mul_pos hv.2.2 hv.2.1
  · simpa using hne

theorem cumPop_getLastQ (hs : List Household) (es : List Expense)
    (hne : lorenzSorted hs es ≠ []) (hB : lorenzB hs es ≠ 0) :
    (cumPop hs es).getLast? = some 1 := by
  rw [cumPop, cumsum, cumsumFrom_getLastQ _ (by simpa using hne), zero_add,
    sum_map_div]
  rw [show ((lorenzSorted hs es).map popw).sum = lorenzB hs es from rfl, div_self hB]

theorem cumExp_getLastQ (hs : List Household) (es : List Expense)
    (hne : lorenzSorted hs es ≠ []) (hA : lorenzA hs es ≠ 0) :
    (cumExp hs es).getLast? = some 1 := by
  rw [cumExp, cumsum, cumsumFrom_getLastQ _ (by simpa using hne), zero_add,
    sum_map_div]
  rw [show ((lorenzSorted hs es).map expw).sum = lorenzA hs es from rfl, div_self hA]

/-! ### Message distinctness -/

theorem confirmMsg_ne_warnMsg (hs : List Household) : confirmMsg hs ≠ warnMsg := by
  intro h
  have h5 : (confirmMsg hs).data.head? = some 'Y' := rfl
  rw [h] at h5
  have h6 : warnMsg.data.head? = some 'W' := rfl
  rw [h6] at h5
  exact absurd (Option.some.inj h5) (by decide)

theorem sanityCheckSubset_iff (hs : List Household) (es : List Expense) :
    sanityCheckSubset hs es = true ↔ ∀ i ∈ householdIds hs, i ∈ expenseIds es := by
  rw [sanityCheckSubset, List.all_eq_true]
  constructor
  · intro h i hi
    simpa using h i hi
  · intro h i hi
    simpa using h i hi

theorem sanityCheckMsg_of_true (hs : List Household) (es : List Expense)
    (h : sanityCheckSubset hs es = true) : sanityCheckMsg hs es = confirmMsg hs := by
  rw [sanityCheckMsg, h]
  simp

theorem sanityCheckMsg_of_false (hs : List Household) (es : List Expense)
    (h : sanityCheckSubset hs es = false) : sanityCheckMsg hs es = warnMsg := by
  rw [sanityCheckMsg, h]
  simp

/-! ### Concrete evaluations

Scenario A: 3 households, weights `[1,1,1]`, sizes `[1,1,1]`, a single
product, expenditures `[10,20,30]` (the spec's worked Lorenz scenario). -/

theorem evalA_sorted : lorenzSorted ([⟨1, 1, 1⟩, ⟨2, 1, 1⟩, ⟨3, 1, 1⟩] : List Household)
    ([⟨1, 7, 10⟩, ⟨2, 7, 20⟩, ⟨3, 7, 30⟩] : List Expense)
    = [⟨10, 1, 1⟩, ⟨20, 1, 1⟩, ⟨30, 1, 1⟩] := by
  norm_num [lorenzSorted, lorenzMerged, hhKeys, hhTotal, List.dedup, List.filter,
    List.flatMap, perCapLE, perCapita]

theorem evalA_cumPop : cumPop ([⟨1, 1, 1⟩, ⟨2, 1, 1⟩, ⟨3, 1, 1⟩] : List Household)
    ([⟨1, 7, 10⟩, ⟨2, 7, 20⟩, ⟨3, 7, 30⟩] : List Expense) = [1 / 3, 2 / 3, 1] := by
  rw [cumPop, lorenzB, evalA_sorted]
  norm_num [cumsum, cumsumFrom, popw]

theorem evalA_cumExp : cumExp ([⟨1, 1, 1⟩, ⟨2, 1, 1⟩, ⟨3, 1, 1⟩] : List Household)
    ([⟨1, 7, 10⟩, ⟨2, 7, 20⟩, ⟨3, 7, 30⟩] : List Expense) = [1 / 6, 1 / 2, 1] := by
  rw [cumExp, lorenzA, evalA_sorted]
  norm_num [cumsum, cumsumFrom, expw]

/-- On scenario A, no index of the `cum_exp` column — in or out of range —
yields a share that rounds to 83.33: the only candidate reports are 16.67,
50.00 and 100.00 (and 0 past the end). -/
theorem evalA_no_8333 : ∀ j : ℕ,
    round2 (100 * (cumExp ([⟨1, 1, 1⟩, ⟨2, 1, 1⟩, ⟨3, 1, 1⟩] : List Household)
      ([⟨1, 7, 10⟩, ⟨2, 7, 20⟩, ⟨3, 7, 30⟩] : List Expense)).getD j 0) ≠ 8333 / 100 := by
  intro j
  rw [evalA_cumExp]
  rcases j with _ | _ | _ | j
  · norm_num [round2, roundHalfEven, Int.fract, round_eq]
  · norm_num [round2, roundHalfEven, Int.fract, round_eq]
  · norm_num [round2, roundHalfEven, Int.fract, round_eq]
  · norm_num [round2, roundHalfEven, Int.fract, round_eq, List.getD]

theorem evalA_gini : gini ([⟨1, 1, 1⟩, ⟨2, 1, 1⟩, ⟨3, 1, 1⟩] : List Household)
    ([⟨1, 7, 10⟩, ⟨2, 7, 20⟩, ⟨3, 7, 30⟩] : List Expense) = 5 / 18 := by
  rw [gini, evalA_cumPop, evalA_cumExp]
  norm_num [trap2]

theorem evalA_A_pos : 0 < lorenzA ([⟨1, 1, 1⟩, ⟨2, 1, 1⟩, ⟨3, 1, 1⟩] : List Household)
    ([⟨1, 7, 10⟩, ⟨2, 7, 20⟩, ⟨3, 7, 30⟩] : List Expense) := by
  rw [lorenzA, evalA_sorted]
  norm_num [expw]

theorem evalA_merged_ne : lorenzMerged ([⟨1, 1, 1⟩, ⟨2, 1, 1⟩, ⟨3, 1, 1⟩] : List Household)
    ([⟨1, 7, 10⟩, ⟨2, 7, 20⟩, ⟨3, 7, 30⟩] : List Expense) ≠ [] := by
  norm_num [lorenzMerged, hhKeys, hhTotal, List.dedup, List.filter, List.flatMap]
  simp

/-! Scenario B: two identical households (equal per-capita expenditure). -/

theorem evalB_sorted : lorenzSorted ([⟨1, 1, 1⟩, ⟨2, 1, 1⟩] : List Household)
    ([⟨1, 7, 10⟩, ⟨2, 7, 10⟩] : List Expense) = [⟨10, 1, 1⟩, ⟨10, 1, 1⟩] := by
  norm_num [lorenzSorted, lorenzMerged, hhKeys, hhTotal, List.dedup, List.filter,
    List.flatMap, perCapLE, perCapita]

theorem evalB_cumPop : cumPop ([⟨1, 1, 1⟩, ⟨2, 1, 1⟩] : List Household)
    ([⟨1, 7, 10⟩, ⟨2, 7, 10⟩] : List Expense) = [1 / 2, 1] := by
  rw [cumPop, lorenzB, evalB_sorted]
  norm_num [cumsum, cumsumFrom, popw]

theorem evalB_cumExp : cumExp ([⟨1, 1, 1⟩, ⟨2, 1, 1⟩] : List Household)
    ([⟨1, 7, 10⟩, ⟨2, 7, 10⟩] : List Expense) = [1 / 2, 1] := by
  rw [cumExp, lorenzA, evalB_sorted]
  norm_num [cumsum, cumsumFrom, expw]

theorem evalB_gini : gini ([⟨1, 1, 1⟩, ⟨2, 1, 1⟩] : List Household)
    ([⟨1, 7, 10⟩, ⟨2, 7, 10⟩] : List Expense) = 1 / 4 := by
  rw [gini, evalB_cumPop, evalB_cumExp]
  norm_num [trap2]

/-! Scenario C: one household, one mapped product (code "1", spend 10) and one
unmapped product (code "13", spend 30). -/

theorem decide_none_some (t : String) :
    (decide ((none : Option String) = some t)) = false := by
  simp

theorem coicop_code_1 : coicopMapping "1" = some "FOOD AND NON-ALCOHOLIC BEVERAGES" := rfl

theorem coicop_code_13 : coicopMapping "13" = none := rfl

theorem evalC_merged : nsMerged ([⟨1, 1, 1⟩] : List Household)
    ([⟨1, 100, 10⟩, ⟨1, 200, 30⟩] : List Expense)
    ([⟨100, "1"⟩, ⟨200, "13"⟩] : List Product)
    = [⟨1, 10, "1", 1⟩, ⟨1, 30, "13", 1⟩] := by
  norm_num [nsMerged, List.filter, List.flatMap]

theorem evalC_keys : nsKeys ([⟨1, 1, 1⟩] : List Household)
    ([⟨1, 100, 10⟩, ⟨1, 200, 30⟩] : List Expense)
    ([⟨100, "1"⟩, ⟨200, "13"⟩] : List Product)
    = ["FOOD AND NON-ALCOHOLIC BEVERAGES"] := by
  rw [nsKeys, evalC_merged]
  norm_num [nsCat, coicop_code_1, coicop_code_13, List.filterMap, List.dedup]

theorem evalC_total : nsTotal ([⟨1, 1, 1⟩] : List Household)
    ([⟨1, 100, 10⟩, ⟨1, 200, 30⟩] : List Expense)
    ([⟨100, "1"⟩, ⟨200, "13"⟩] : List Product) = 10 := by
  rw [nsTotal, evalC_keys]
  norm_num [nsGroupSum, evalC_merged, nsCat, coicop_code_1, coicop_code_13, nsWeighted,
    List.filter, decide_none_some]

/-! Scenario D: a single household whose only expense is zero, so the grand
total weighted expenditure is zero and every division by the total is a
division by zero. -/

theorem evalD_keys : nsKeys ([⟨1, 1, 1⟩] : List Household)
    ([⟨1, 100, 0⟩] : List Expense) ([⟨100, "1"⟩] : List Product)
    = ["FOOD AND NON-ALCOHOLIC BEVERAGES"] := by
  norm_num [nsKeys, nsMerged, nsCat, coicop_code_1, List.filterMap, List.dedup,
    List.filter, List.flatMap]

theorem evalD_total : nsTotal ([⟨1, 1, 1⟩] : List Household)
    ([⟨1, 100, 0⟩] : List Expense) ([⟨100, "1"⟩] : List Product) = 0 := by
  rw [nsTotal, evalD_keys]
  norm_num [nsGroupSum, nsMerged, nsCat, coicop_code_1, nsWeighted, List.filter,
    List.flatMap, decide_none_some]

theorem evalD_shares : nsShares ([⟨1, 1, 1⟩] : List Household)
    ([⟨1, 100, 0⟩] : List Expense) ([⟨100, "1"⟩] : List Product)
    = [("FOOD AND NON-ALCOHOLIC BEVERAGES", 0)] := by
  rw [nsShares, evalD_keys, evalD_total]
  norm_num [round2, roundHalfEven, Int.fract, round_eq]

theorem evalD_cumExp : cumExp ([⟨1, 1, 1⟩] : List Household)
    ([⟨1, 100, 0⟩] : List Expense) = [0] := by
  norm_num [cumExp, cumsum, cumsumFrom, lorenzSorted, lorenzMerged, hhKeys, hhTotal,
    lorenzA, perCapLE, perCapita, expw, List.dedup, List.filter, List.flatMap]

/-! ### Claims -/

/-- C1 (counterexample): an input in which household id 2 appears in the
expense table but not in the household table, yet `sanity_check` prints the
confirmation and no subset-violation warning — the code checks the opposite
inclusion to the one this claim describes. -/
theorem C1_counterexample :
    sanityCheckMsg ([⟨1, 1, 1⟩] : List Household)
        ([⟨1, 7, 10⟩, ⟨2, 7, 20⟩] : List Expense)
      = confirmMsg ([⟨1, 1, 1⟩] : List Household)
    ∧ (2 : ℕ) ∈ expenseIds ([⟨1, 7, 10⟩, ⟨2, 7, 20⟩] : List Expense)
    ∧ (2 : ℕ) ∉ householdIds ([⟨1, 1, 1⟩] : List Household) :=
  ⟨rfl, by decide, by decide⟩

/-- C1 (amended): the validator checks household-table ids for membership in
the expense table, not the reverse: the warning is reported exactly when some
household-table id has no expense record; an expense-side household id absent
from the household table does not, by itself, trigger any warning. -/
theorem C1_amended_warning_iff (hs : List Household) (es : List Expense) :
    sanityCheckMsg hs es = warnMsg ↔ ∃ i ∈ householdIds hs, i ∉ expenseIds es := by
  cases hsub : sanityCheckSubset hs es with
  | true =>
    constructor
    · intro h
      rw [sanityCheckMsg_of_true hs es hsub] at h
      exact absurd h (confirmMsg_ne_warnMsg hs)
    · rintro ⟨i, hi, hni⟩
      exact absurd ((sanityCheckSubset_iff hs es).mp hsub i hi) hni
  | false =>
    constructor
    · intro _
      have hall : ¬ ∀ i ∈ householdIds hs, i ∈ expenseIds es := by
        intro hall
        rw [(sanityCheckSubset_iff hs es).mpr hall] at hsub
        cases hsub
      push_neg at hall
      exact hall
    · intro _
      exact sanityCheckMsg_of_false hs es hsub

/-- C8: `sanity_check` determines whether the household-table ids are a
subset of the expense-table ids, prints the confirmation exactly when the
subset relation holds and the warning exactly when it does not (and returns
normally in either case: both branches produce a message). -/
theorem C8_subset_message (hs : List Household) (es : List Expense) :
    (sanityCheckSubset hs es = true ↔ ∀ i ∈ householdIds hs, i ∈ expenseIds es)
    ∧ (sanityCheckMsg hs es = confirmMsg hs ↔ sanityCheckSubset hs es = true)
    ∧ (sanityCheckMsg hs es = warnMsg ↔ sanityCheckSubset hs es = false) := by
  refine ⟨sanityCheckSubset_iff hs es, ?_, ?_⟩
  · constructor
    · intro h
      cases hsub : sanityCheckSubset hs es with
      | true => rfl
      | false =>
        rw [sanityCheckMsg_of_false hs es hsub] at h
        exact absurd h.symm (confirmMsg_ne_warnMsg hs)
    · intro h
      exact sanityCheckMsg_of_true hs es h
  · constructor
    · intro h
      cases hsub : sanityCheckSubset hs es with
      | false => rfl
      | true =>
        rw [sanityCheckMsg_of_true hs es hsub] at h
        exact absurd h (confirmMsg_ne_warnMsg hs)
    · intro h
      exact sanityCheckMsg_of_false hs es h

/-- C9: `sanity_check` only reads the three tables: the data handed on to the
rest of the pipeline is exactly the input — no row or column is added,
modified, or dropped — and its only other output is the console message
list. -/
theorem C9_frame (hs : List Household) (es : List Expense) (ps : List Product) :
    (sanityCheck hs es ps).2 = (hs, es, ps) :=
  rfl

/-- C2 (counterexample): on the spec's 3-household scenario the cumulative
expenditure shares are `[1/6, 1/2, 1]`, so whichever index the nearest-to-0.5
selection returns — the choice between the two nearly equidistant points
`cum_pop = 1/3` and `cum_pop = 2/3` is decided by the arithmetic's rounding —
the reported share `round2(100 · cum_exp[j])` is 16.67, 50.00 or 100.00,
never the claimed ≈ 83.33. -/
theorem C2_counterexample :
    cumExp ([⟨1, 1, 1⟩, ⟨2, 1, 1⟩, ⟨3, 1, 1⟩] : List Household)
        ([⟨1, 7, 10⟩, ⟨2, 7, 20⟩, ⟨3, 7, 30⟩] : List Expense) = [1 / 6, 1 / 2, 1]
    ∧ ∀ j : ℕ,
      round2 (100 * (cumExp ([⟨1, 1, 1⟩, ⟨2, 1, 1⟩, ⟨3, 1, 1⟩] : List Household)
        ([⟨1, 7, 10⟩, ⟨2, 7, 20⟩, ⟨3, 7, 30⟩] : List Expense)).getD j 0) ≠ 8333 / 100 :=
  ⟨evalA_cumExp, evalA_no_8333⟩

/-- C2 (amended): on the 3-household scenario the sorted per-capita list is
`[10,20,30]`, `cum_pop = [1/3, 2/3, 1]`, `cum_exp = [1/6, 1/2, 1]`, and the
trapezoidal Gini over the three points is `5/18`; the expenditure share at
the claim's selected point `cum_pop = 2/3` (index 1, the point the program's
IEEE-double arithmetic picks as nearest 0.5 — in exact arithmetic the two
points `1/3` and `2/3` are equidistant) is 50.00%, and no selectable index
yields the claimed ≈ 83.33%. -/
theorem C2_amended_scenario :
    ((lorenzSorted ([⟨1, 1, 1⟩, ⟨2, 1, 1⟩, ⟨3, 1, 1⟩] : List Household)
        ([⟨1, 7, 10⟩, ⟨2, 7, 20⟩, ⟨3, 7, 30⟩] : List Expense)).map perCapita = [10, 20, 30])
    ∧ cumPop ([⟨1, 1, 1⟩, ⟨2, 1, 1⟩, ⟨3, 1, 1⟩] : List Household)
        ([⟨1, 7, 10⟩, ⟨2, 7, 20⟩, ⟨3, 7, 30⟩] : List Expense) = [1 / 3, 2 / 3, 1]
    ∧ cumExp ([⟨1, 1, 1⟩, ⟨2, 1, 1⟩, ⟨3, 1, 1⟩] : List Household)
        ([⟨1, 7, 10⟩, ⟨2, 7, 20⟩, ⟨3, 7, 30⟩] : List Expense) = [1 / 6, 1 / 2, 1]
    ∧ round2 (100 * (cumExp ([⟨1, 1, 1⟩, ⟨2, 1, 1⟩, ⟨3, 1, 1⟩] : List Household)
        ([⟨1, 7, 10⟩, ⟨2, 7, 20⟩, ⟨3, 7, 30⟩] : List Expense)).getD 1 0) = 50
    ∧ (∀ j : ℕ,
        round2 (100 * (cumExp ([⟨1, 1, 1⟩, ⟨2, 1, 1⟩, ⟨3, 1, 1⟩] : List Household)
          ([⟨1, 7, 10⟩, ⟨2, 7, 20⟩, ⟨3, 7, 30⟩] : List Expense)).getD j 0) ≠ 8333 / 100)
    ∧ gini ([⟨1, 1, 1⟩, ⟨2, 1, 1⟩, ⟨3, 1, 1⟩] : List Household)
        ([⟨1, 7, 10⟩, ⟨2, 7, 20⟩, ⟨3, 7, 30⟩] : List Expense) = 5 / 18 := by
  refine ⟨?_, evalA_cumPop, evalA_cumExp, ?_, evalA_no_8333, evalA_gini⟩
  · rw [evalA_sorted]
    norm_num [perCapita]
  · rw [evalA_cumExp]
    norm_num [round2, roundHalfEven, Int.fract, round_eq]

/-- C3 (counterexample): two identical households (equal per-capita
expenditure) yield Gini = 1/4, not ≈ 0: `np.trapezoid` integrates only over
the computed points, without a (0,0) anchor, so perfect equality gives
Gini = (first cumulative population share)², here (1/2)² = 1/4. -/
theorem C3_counterexample :
    ((lorenzSorted ([⟨1, 1, 1⟩, ⟨2, 1, 1⟩] : List Household)
        ([⟨1, 7, 10⟩, ⟨2, 7, 10⟩] : List Expense)).map perCapita = [10, 10])
    ∧ gini ([⟨1, 1, 1⟩, ⟨2, 1, 1⟩] : List Household)
        ([⟨1, 7, 10⟩, ⟨2, 7, 10⟩] : List Expense) = 1 / 4 := by
  refine ⟨?_, evalB_gini⟩
  rw [evalB_sorted]
  norm_num [perCapita]

/-- C3 (amended): for valid inputs (positive weights, positive household
sizes, non-negative expenditures, positive total weighted expenditure after
the merge) the Gini coefficient `1 − 2 × trapezoid(cum_exp, cum_pop)` lies in
[0, 1]; but an all-equal per-capita input does not yield Gini ≈ 0 (see the
counterexample: two identical households give 1/4). -/
theorem C3_gini_in_unit_interval (hs : List Household) (es : List Expense)
    (hw : ∀ h ∈ hs, 0 < h.weight) (hsz : ∀ h ∈ hs, 0 < h.hh_size)
    (he : ∀ e ∈ es, 0 ≤ e.annual_expenditure) (hA : 0 < lorenzA hs es) :
    0 ≤ gini hs es ∧ gini hs es ≤ 1 := by
  have hne := lorenzSorted_ne_nil hs es hA
  have hB := lorenzB_pos hs es hw hsz he hne
  have hchain := cumPop_chain hs es hw hsz he
  have hfor := cumExp_le_cumPop hs es hw hsz he hA hB
  have hlast := cumPop_getLastQ hs es hne (ne_of_gt hB)
  have hlen : (cumPop hs es).length = (cumExp hs es).length := hfor.length_eq
  cases hxs : cumPop hs es with
  | nil =>
    exfalso
    have hl := cumPop_length hs es
    rw [hxs] at hl
    exact hne (List.length_eq_zero.mp hl.symm)
  | cons x0 xs' =>
    cases hys : cumExp hs es with
    | nil =>
      exfalso
      rw [hxs, hys] at hlen
      simp at hlen
    | cons y0 ys' =>
      rw [hxs] at hchain hfor hlast
      rw [hys] at hfor
      have hfor1 : List.Forall₂ (fun a b => b ≤ a) (x0 :: xs') (y0 :: ys') :=
        hfor.imp (fun _ _ h => h.1)
      have hfor2 : List.Forall₂ (fun _ y => (0 : ℚ) ≤ y) (x0 :: xs') (y0 :: ys') :=
        hfor.imp (fun _ _ h => h.2)
      have ht0 : 0 ≤ trap2 (x0 :: xs') (y0 :: ys') := trap2_nonneg _ _ hchain hfor2
      have ht1 : trap2 (x0 :: xs') (y0 :: ys') ≤ ((1 : ℚ) ^ 2 - x0 ^ 2) / 2 :=
        trap2_le_diag xs' x0 y0 1 ys' hchain hfor1 hlast
      have hg : gini hs es = 1 - 2 * trap2 (x0 :: xs') (y0 :: ys') := by
        rw [gini, hxs, hys]
      refine ⟨?_, ?_⟩
      · rw [hg]
        nlinarith [sq_nonneg x0]
      · rw [hg]
        linarith

/-- C3 (witness): the valid 3-household scenario satisfies the hypotheses and
its Gini lies in [0, 1]. -/
theorem C3_witness :
    (0 < lorenzA ([⟨1, 1, 1⟩, ⟨2, 1, 1⟩, ⟨3, 1, 1⟩] : List Household)
        ([⟨1, 7, 10⟩, ⟨2, 7, 20⟩, ⟨3, 7, 30⟩] : List Expense))
    ∧ (0 ≤ gini ([⟨1, 1, 1⟩, ⟨2, 1, 1⟩, ⟨3, 1, 1⟩] : List Household)
        ([⟨1, 7, 10⟩, ⟨2, 7, 20⟩, ⟨3, 7, 30⟩] : List Expense)
      ∧ gini ([⟨1, 1, 1⟩, ⟨2, 1, 1⟩, ⟨3, 1, 1⟩] : List Household)
        ([⟨1, 7, 10⟩, ⟨2, 7, 20⟩, ⟨3, 7, 30⟩] : List Expense) ≤ 1) :=
  ⟨evalA_A_pos,
    C3_gini_in_unit_interval _ _ (by norm_num) (by norm_num) (by norm_num) evalA_A_pos⟩

/-- C4 (counterexample): with one mapped product (code "1", spend 10) and one
unmapped product (code "13", spend 30), the unmapped row survives the merges
and maps to a missing category, but the output has no missing/"unmapped"
bucket — its only key is the mapped category — and the grand total is 10, so
the 30 of weighted expenditure is lost, not bucketed. -/
theorem C4_counterexample :
    (⟨1, 30, "13", 1⟩ : NSRow) ∈ nsMerged ([⟨1, 1, 1⟩] : List Household)
        ([⟨1, 100, 10⟩, ⟨1, 200, 30⟩] : List Expense)
        ([⟨100, "1"⟩, ⟨200, "13"⟩] : List Product)
    ∧ nsCat (⟨1, 30, "13", 1⟩ : NSRow) = none
    ∧ nsWeighted (⟨1, 30, "13", 1⟩ : NSRow) = 30
    ∧ nsKeys ([⟨1, 1, 1⟩] : List Household)
        ([⟨1, 100, 10⟩, ⟨1, 200, 30⟩] : List Expense)
        ([⟨100, "1"⟩, ⟨200, "13"⟩] : List Product)
      = ["FOOD AND NON-ALCOHOLIC BEVERAGES"]
    ∧ nsTotal ([⟨1, 1, 1⟩] : List Household)
        ([⟨1, 100, 10⟩, ⟨1, 200, 30⟩] : List Expense)
        ([⟨100, "1"⟩, ⟨200, "13"⟩] : List Product) = 10 := by
  refine ⟨?_, rfl, by norm_num [nsWeighted], evalC_keys, evalC_total⟩
  rw [evalC_merged]
  simp

/-- C4 (amended): the category-share aggregation never fails, but a row whose
code is unmapped is silently dropped rather than bucketed: every key of the
output comes from a row with a mapped code, and the grand total equals the sum
of weighted expenditure over exactly the rows whose code is mapped. -/
theorem C4_amended_unmapped_dropped (hs : List Household) (es : List Expense)
    (ps : List Product) :
    (∀ c ∈ nsKeys hs es ps, ∃ r ∈ nsMerged hs es ps, nsCat r = some c)
    ∧ nsTotal hs es ps
      = (((nsMerged hs es ps).filter (fun r => (nsCat r).isSome)).map nsWeighted).sum := by
  constructor
  · intro c hc
    rcases List.mem_filterMap.mp (List.mem_dedup.mp hc) with ⟨r, hr, hcat⟩
    exact ⟨r, hr, hcat⟩
  · rw [nsTotal]
    exact groupby_partition nsCat nsWeighted (nsMerged hs es ps) (nsKeys hs es ps)
      (List.nodup_dedup _)
      (fun r hr c hcat => List.mem_dedup.mpr (List.mem_filterMap.mpr ⟨r, hr, hcat⟩))

/-- C5: the bottom-50% report picks the index whose cumulative population
share is nearest 0.5 in absolute difference, ties broken by the first
occurrence in sorted order, and reports that row's cumulative expenditure
share times 100, rounded (half-to-even) to 2 decimals. -/
theorem C5_fifty_selection (hs : List Household) (es : List Expense)
    (hne : lorenzMerged hs es ≠ []) :
    nearestFifty hs es < (cumPop hs es).length
    ∧ (∀ j, j < (cumPop hs es).length →
        |(cumPop hs es).getD (nearestFifty hs es) 0 - 1 / 2|
          ≤ |(cumPop hs es).getD j 0 - 1 / 2|)
    ∧ (∀ j, j < nearestFifty hs es →
        |(cumPop hs es).getD (nearestFifty hs es) 0 - 1 / 2|
          < |(cumPop hs es).getD j 0 - 1 / 2|)
    ∧ fiftyShare hs es = round2 (100 * (cumExp hs es).getD (nearestFifty hs es) 0) := by
  have hlen : (cumPop hs es).length = (lorenzMerged hs es).length := by
    rw [cumPop_length]
    exact (List.perm_insertionSort perCapLE (lorenzMerged hs es)).length_eq
  have hcne : cumPop hs es ≠ [] := by
    intro h
    rw [h] at hlen
    exact hne (List.length_eq_zero.mp hlen.symm)
  have hmne : (cumPop hs es).map (fun x => |x - 1 / 2|) ≠ [] := by
    simpa using hcne
  have hmlen : ((cumPop hs es).map (fun x => |x - 1 / 2|)).length = (cumPop hs es).length :=
    List.length_map _ _
  have hmget : ∀ j, j < (cumPop hs es).length →
      ((cumPop hs es).map (fun x => |x - 1 / 2|)).getD j 0
        = |(cumPop hs es).getD j 0 - 1 / 2| := by
    intro j hj
    rw [List.getD_eq_getElem _ 0 (by rwa [hmlen]), List.getElem_map,
      List.getD_eq_getElem _ 0 hj]
  have hidx : nearestFifty hs es < (cumPop hs es).length := by
    have := idxOfMin_lt_length _ hmne
    rwa [hmlen] at this
  have hdef : idxOfMin ((cumPop hs es).map (fun x => |x - 1 / 2|)) = nearestFifty hs es :=
    rfl
  refine ⟨hidx, ?_, ?_, rfl⟩
  · intro j hj
    have h2 := idxOfMin_le_getD _ hmne j (by rwa [hmlen])
    rw [hdef] at h2
    rwa [hmget _ hidx, hmget _ hj] at h2
  · intro j hj
    have hjlt : j < (cumPop hs es).length := lt_trans hj hidx
    have h2 := idxOfMin_first ((cumPop hs es).map (fun x => |x - 1 / 2|)) j hj
    rw [hdef] at h2
    rwa [hmget _ hidx, hmget _ hjlt] at h2

/-- C5 (witness): the 3-household scenario has a nonempty merged table, and
the selection property holds there. -/
theorem C5_witness :
    (lorenzMerged ([⟨1, 1, 1⟩, ⟨2, 1, 1⟩, ⟨3, 1, 1⟩] : List Household)
        ([⟨1, 7, 10⟩, ⟨2, 7, 20⟩, ⟨3, 7, 30⟩] : List Expense) ≠ [])
    ∧ (nearestFifty ([⟨1, 1, 1⟩, ⟨2, 1, 1⟩, ⟨3, 1, 1⟩] : List Household)
          ([⟨1, 7, 10⟩, ⟨2, 7, 20⟩, ⟨3, 7, 30⟩] : List Expense)
        < (cumPop ([⟨1, 1, 1⟩, ⟨2, 1, 1⟩, ⟨3, 1, 1⟩] : List Household)
          ([⟨1, 7, 10⟩, ⟨2, 7, 20⟩, ⟨3, 7, 30⟩] : List Expense)).length
      ∧ (∀ j, j < (cumPop ([⟨1, 1, 1⟩, ⟨2, 1, 1⟩, ⟨3, 1, 1⟩] : List Household)
          ([⟨1, 7, 10⟩, ⟨2, 7, 20⟩, ⟨3, 7, 30⟩] : List Expense)).length →
          |(cumPop ([⟨1, 1, 1⟩, ⟨2, 1, 1⟩, ⟨3, 1, 1⟩] : List Household)
            ([⟨1, 7, 10⟩, ⟨2, 7, 20⟩, ⟨3, 7, 30⟩] : List Expense)).getD
            (nearestFifty ([⟨1, 1, 1⟩, ⟨2, 1, 1⟩, ⟨3, 1, 1⟩] : List Household)
              ([⟨1, 7, 10⟩, ⟨2, 7, 20⟩, ⟨3, 7, 30⟩] : List Expense)) 0 - 1 / 2|
            ≤ |(cumPop ([⟨1, 1, 1⟩, ⟨2, 1, 1⟩, ⟨3, 1, 1⟩] : List Household)
              ([⟨1, 7, 10⟩, ⟨2, 7, 20⟩, ⟨3, 7, 30⟩] : List Expense)).getD j 0 - 1 / 2|)
      ∧ (∀ j, j < nearestFifty ([⟨1, 1, 1⟩, ⟨2, 1, 1⟩, ⟨3, 1, 1⟩] : List Household)
          ([⟨1, 7, 10⟩, ⟨2, 7, 20⟩, ⟨3, 7, 30⟩] : List Expense) →
          |(cumPop ([⟨1, 1, 1⟩, ⟨2, 1, 1⟩, ⟨3, 1, 1⟩] : List Household)
            ([⟨1, 7, 10⟩, ⟨2, 7, 20⟩, ⟨3, 7, 30⟩] : List Expense)).getD
            (nearestFifty ([⟨1, 1, 1⟩, ⟨2, 1, 1⟩, ⟨3, 1, 1⟩] : List Household)
              ([⟨1, 7, 10⟩, ⟨2, 7, 20⟩, ⟨3, 7, 30⟩] : List Expense)) 0 - 1 / 2|
            < |(cumPop ([⟨1, 1, 1⟩, ⟨2, 1, 1⟩, ⟨3, 1, 1⟩] : List Household)
              ([⟨1, 7, 10⟩, ⟨2, 7, 20⟩, ⟨3, 7, 30⟩] : List Expense)).getD j 0 - 1 / 2|)
      ∧ fiftyShare ([⟨1, 1, 1⟩, ⟨2, 1, 1⟩, ⟨3, 1, 1⟩] : List Household)
          ([⟨1, 7, 10⟩, ⟨2, 7, 20⟩, ⟨3, 7, 30⟩] : List Expense)
        = round2 (100 * (cumExp ([⟨1, 1, 1⟩, ⟨2, 1, 1⟩, ⟨3, 1, 1⟩] : List Household)
            ([⟨1, 7, 10⟩, ⟨2, 7, 20⟩, ⟨3, 7, 30⟩] : List Expense)).getD
            (nearestFifty ([⟨1, 1, 1⟩, ⟨2, 1, 1⟩, ⟨3, 1, 1⟩] : List Household)
              ([⟨1, 7, 10⟩, ⟨2, 7, 20⟩, ⟨3, 7, 30⟩] : List Expense)) 0)) :=
  ⟨evalA_merged_ne, C5_fifty_selection _ _ evalA_merged_ne⟩

/-- C6: when the grand total is positive, the rounded per-category shares sum
to 100 within 0.01 × (number of categories). -/
theorem C6_shares_sum (hs : List Household) (es : List Expense) (ps : List Product)
    (hT : 0 < nsTotal hs es ps) :
    |((nsShares hs es ps).map Prod.snd).sum - 100|
      ≤ ((nsKeys hs es ps).length : ℚ) * (1 / 100) := by
  have hmap : (nsShares hs es ps).map Prod.snd
      = ((nsKeys hs es ps).map
          (fun c => nsGroupSum hs es ps c / nsTotal hs es ps * 100)).map round2 := by
    rw [nsShares, List.map_map, List.map_map]
    rfl
  have h1 : ∀ c, nsGroupSum hs es ps c / nsTotal hs es ps * 100
      = nsGroupSum hs es ps c * (100 / nsTotal hs es ps) := by
    intro c
    ring
  have hsum : ((nsKeys hs es ps).map
      (fun c => nsGroupSum hs es ps c / nsTotal hs es ps * 100)).sum = 100 := by
    rw [List.map_congr_left (fun c _ => h1 c), List.sum_map_mul_right]
    rw [show ((nsKeys hs es ps).map (nsGroupSum hs es ps)).sum = nsTotal hs es ps from rfl]
    field_simp
  have herr := sum_round2_err ((nsKeys hs es ps).map
    (fun c => nsGroupSum hs es ps c / nsTotal hs es ps * 100))
  rw [hsum, List.length_map] at herr
  rw [hmap]
  have hstep : ((nsKeys hs es ps).length : ℚ) * (1 / 200)
      ≤ ((nsKeys hs es ps).length : ℚ) * (1 / 100) := by
    apply mul_le_mul_of_nonneg_left (by norm_num) (by positivity)
  linarith

/-- C6 (witness): on the two-product scenario the total is positive and the
rounded shares sum to 100 within the tolerance. -/
theorem C6_witness :
    (0 < nsTotal ([⟨1, 1, 1⟩] : List Household)
        ([⟨1, 100, 10⟩, ⟨1, 200, 30⟩] : List Expense)
        ([⟨100, "1"⟩, ⟨200, "13"⟩] : List Product))
    ∧ |((nsShares ([⟨1, 1, 1⟩] : List Household)
          ([⟨1, 100, 10⟩, ⟨1, 200, 30⟩] : List Expense)
          ([⟨100, "1"⟩, ⟨200, "13"⟩] : List Product)).map Prod.snd).sum - 100|
      ≤ ((nsKeys ([⟨1, 1, 1⟩] : List Household)
          ([⟨1, 100, 10⟩, ⟨1, 200, 30⟩] : List Expense)
          ([⟨100, "1"⟩, ⟨200, "13"⟩] : List Product)).length : ℚ) * (1 / 100) :=
  ⟨by rw [evalC_total]; norm_num, C6_shares_sum _ _ _ (by rw [evalC_total]; norm_num)⟩

/-- C7: for valid inputs (positive weights, positive sizes, non-negative
expenditures, positive total weighted expenditure after the merge) both
cumulative-share sequences are non-decreasing and end at exactly 1. -/
theorem C7_cum_monotone_last_one (hs : List Household) (es : List Expense)
    (hw : ∀ h ∈ hs, 0 < h.weight) (hsz : ∀ h ∈ hs, 0 < h.hh_size)
    (he : ∀ e ∈ es, 0 ≤ e.annual_expenditure) (hA : 0 < lorenzA hs es) :
    List.Chain' (· ≤ ·) (cumPop hs es) ∧ List.Chain' (· ≤ ·) (cumExp hs es)
    ∧ (cumPop hs es).getLast? = some 1 ∧ (cumExp hs es).getLast? = some 1 := by
  have hne := lorenzSorted_ne_nil hs es hA
  have hB := lorenzB_pos hs es hw hsz he hne
  exact ⟨cumPop_chain hs es hw hsz he, cumExp_chain hs es hw hsz he hA,
    cumPop_getLastQ hs es hne (ne_of_gt hB), cumExp_getLastQ hs es hne (ne_of_gt hA)⟩

/-- C7 (witness): the 3-household scenario satisfies the hypotheses; its
cumulative sequences are non-decreasing and end at 1. -/
theorem C7_witness :
    (0 < lorenzA ([⟨1, 1, 1⟩, ⟨2, 1, 1⟩, ⟨3, 1, 1⟩] : List Household)
        ([⟨1, 7, 10⟩, ⟨2, 7, 20⟩, ⟨3, 7, 30⟩] : List Expense))
    ∧ (List.Chain' (· ≤ ·) (cumPop ([⟨1, 1, 1⟩, ⟨2, 1, 1⟩, ⟨3, 1, 1⟩] : List Household)
        ([⟨1, 7, 10⟩, ⟨2, 7, 20⟩, ⟨3, 7, 30⟩] : List Expense))
      ∧ List.Chain' (· ≤ ·) (cumExp ([⟨1, 1, 1⟩, ⟨2, 1, 1⟩, ⟨3, 1, 1⟩] : List Household)
        ([⟨1, 7, 10⟩, ⟨2, 7, 20⟩, ⟨3, 7, 30⟩] : List Expense))
      ∧ (cumPop ([⟨1, 1, 1⟩, ⟨2, 1, 1⟩, ⟨3, 1, 1⟩] : List Household)
        ([⟨1, 7, 10⟩, ⟨2, 7, 20⟩, ⟨3, 7, 30⟩] : List Expense)).getLast? = some 1
      ∧ (cumExp ([⟨1, 1, 1⟩, ⟨2, 1, 1⟩, ⟨3, 1, 1⟩] : List Household)
        ([⟨1, 7, 10⟩, ⟨2, 7, 20⟩, ⟨3, 7, 30⟩] : List Expense)).getLast? = some 1) :=
  ⟨evalA_A_pos,
    C7_cum_monotone_last_one _ _ (by norm_num) (by norm_num) (by norm_num) evalA_A_pos⟩

/-- C10: a single household whose only expense is 0 reaches the divisions by
the grand total with a zero divisor (in the Python code, `0/0` — NaN; here
the `ℚ` convention `x / 0 = 0`): the grand total is 0, the output share list
is `[0]` instead of summing to 100, and `cum_exp` ends at 0 instead of 1 — so
positivity of the total is an unstated precondition of both stages. -/
theorem C10_zero_total_precondition :
    nsTotal ([⟨1, 1, 1⟩] : List Household) ([⟨1, 100, 0⟩] : List Expense)
        ([⟨100, "1"⟩] : List Product) = 0
    ∧ nsShares ([⟨1, 1, 1⟩] : List Household) ([⟨1, 100, 0⟩] : List Expense)
        ([⟨100, "1"⟩] : List Product) = [("FOOD AND NON-ALCOHOLIC BEVERAGES", 0)]
    ∧ ((nsShares ([⟨1, 1, 1⟩] : List Household) ([⟨1, 100, 0⟩] : List Expense)
        ([⟨100, "1"⟩] : List Product)).map Prod.snd).sum = 0
    ∧ cumExp ([⟨1, 1, 1⟩] : List Household) ([⟨1, 100, 0⟩] : List Expense) = [0]
    ∧ (cumExp ([⟨1, 1, 1⟩] : List Household)
        ([⟨1, 100, 0⟩] : List Expense)).getLast? = some 0 := by
  refine ⟨evalD_total, evalD_shares, ?_, evalD_cumExp, ?_⟩
  · rw [evalD_shares]
    norm_num
  · rw [evalD_cumExp]
    rfl

end HouseholdExp
